import Mathlib

/-!
Verification of the smartcropai job-orchestration core against its source.

The definitions below are a shallow embedding of the TypeScript source:
  * `shared/schema.ts` (src/unnamed/part_000): the Job record, `ProcessedResult`,
    `PLATFORM_CONFIGS` (the Format Catalog);
  * `server/routes.ts`: `processMediaAsync` (the Job Orchestrator loop),
    `processMedia` (the per-task advanced/fallback processing), the
    `/api/download/:jobId/:filename` route, and `MemStorage` (the Job Store);
  * `server/squoosh_optimizer.ts`: `getOptimalEncodingOptions`;
  * `server/routes/optimize-routes.ts`: the dimension-reduction clamp.

External effects (the OpenAI vision call, the spawned python process, `fs`
calls) are modelled by an explicit environment: each external invocation's
outcome is a field of the environment, and the embedding routes those outcomes
through the exact try/catch structure of the source.
-/

/-! ## Data model (shared/schema.ts) -/

structure Dimensions where
  width : Nat
  height : Nat
deriving DecidableEq, Repr

structure FormatSpec where
  name : String
  dimensions : Dimensions
  aspectRatio : String
deriving DecidableEq, Repr

structure PlatformConfig where
  id : String
  name : String
  icon : String
  color : String
  formats : List FormatSpec
deriving DecidableEq, Repr

/-- `PLATFORM_CONFIGS` from shared/schema.ts, transcribed in full. -/
def PLATFORM_CONFIGS : List PlatformConfig := [
  { id := "instagram", name := "Instagram", icon := "instagram",
    color := "from-pink-500 to-orange-500",
    formats := [
      { name := "Square", dimensions := { width := 1080, height := 1080 }, aspectRatio := "1:1" },
      { name := "Story", dimensions := { width := 1080, height := 1920 }, aspectRatio := "9:16" },
      { name := "Reel", dimensions := { width := 1080, height := 1920 }, aspectRatio := "9:16" }] },
  { id := "tiktok", name := "TikTok", icon := "tiktok", color := "bg-black",
    formats := [
      { name := "Video", dimensions := { width := 1080, height := 1920 }, aspectRatio := "9:16" }] },
  { id := "youtube", name := "YouTube", icon := "youtube", color := "bg-red-600",
    formats := [
      { name := "Video", dimensions := { width := 1920, height := 1080 }, aspectRatio := "16:9" },
      { name := "Thumbnail", dimensions := { width := 1280, height := 720 }, aspectRatio := "16:9" }] },
  { id := "facebook", name := "Facebook", icon := "facebook", color := "bg-blue-600",
    formats := [
      { name := "Feed", dimensions := { width := 1200, height := 1500 }, aspectRatio := "4:5" },
      { name := "Story", dimensions := { width := 1080, height := 1920 }, aspectRatio := "9:16" },
      { name := "Video", dimensions := { width := 1920, height := 1080 }, aspectRatio := "16:9" }] },
  { id := "linkedin", name := "LinkedIn", icon := "linkedin", color := "bg-blue-700",
    formats := [
      { name := "Post", dimensions := { width := 1200, height := 628 }, aspectRatio := "1.91:1" },
      { name := "Video", dimensions := { width := 1920, height := 1080 }, aspectRatio := "16:9" }] },
  { id := "pinterest", name := "Pinterest", icon := "pinterest", color := "bg-red-500",
    formats := [
      { name := "Pin", dimensions := { width := 1000, height := 1500 }, aspectRatio := "2:3" },
      { name := "Idea Pin", dimensions := { width := 1080, height := 1920 }, aspectRatio := "9:16" }] },
  { id := "twitter", name := "X/Twitter", icon := "twitter", color := "bg-black",
    formats := [
      { name := "Post", dimensions := { width := 1920, height := 1080 }, aspectRatio := "16:9" },
      { name := "Header", dimensions := { width := 1500, height := 500 }, aspectRatio := "3:1" }] },
  { id := "website", name := "Website", icon := "monitor", color := "bg-gray-600",
    formats := [
      { name := "Banner", dimensions := { width := 2560, height := 1080 }, aspectRatio := "21:9" },
      { name := "Hero", dimensions := { width := 1920, height := 1080 }, aspectRatio := "16:9" }] }]

structure ProcessedResult where
  platform : String
  format : String
  dimensions : Dimensions
  fileSize : Nat
  filePath : String
  optimized : Bool
deriving DecidableEq, Repr

/-! ## squoosh_optimizer.ts: getOptimalEncodingOptions -/

/-- JPEG quality selection from `getOptimalEncodingOptions`:
`let jpegQuality = 85; if (originalSize > 2MB) jpegQuality = 75;
else if (originalSize > 5MB) jpegQuality = 70;`. -/
def jpegQualityFor (originalSize : Nat) : Nat :=
  if originalSize > 2 * 1024 * 1024 then 75
  else if originalSize > 5 * 1024 * 1024 then 70
  else 85

/-- WebP quality selection: base 85, `> 2MB` gives 80, `else if > 5MB` gives 75. -/
def webpQualityFor (originalSize : Nat) : Nat :=
  if originalSize > 2 * 1024 * 1024 then 80
  else if originalSize > 5 * 1024 * 1024 then 75
  else 85

/-- AVIF quality selection: base 80, `> 2MB` gives 75, `else if > 5MB` gives 70. -/
def avifQualityFor (originalSize : Nat) : Nat :=
  if originalSize > 2 * 1024 * 1024 then 75
  else if originalSize > 5 * 1024 * 1024 then 70
  else 80

inductive EncodingOptions where
  | mozjpeg (quality : Nat)
  | webpOpts (quality : Nat)
  | oxipng (level : Nat)
  | avifOpts (cqLevel : Int)
deriving DecidableEq, Repr

/-- JS `format.toLowerCase()` (character-wise ASCII lowering). -/
def jsToLowerCase (s : String) : String := ⟨s.data.map Char.toLower⟩

/-- JS `s.startsWith(pre)` on the underlying character lists. -/
def jsStartsWith (s pre : String) : Bool := pre.data.isPrefixOf s.data

/-- The switch of `SquooshOptimizer.getOptimalEncodingOptions` (the encoder
option records are reduced to the fields the quality policy determines;
AVIF stores `cqLevel = 100 - avifQuality` as in the source). -/
def getOptimalEncodingOptions (format : String) (originalSize : Nat) :
    Except String EncodingOptions :=
  match jsToLowerCase format with
  | "jpeg" => .ok (.mozjpeg (jpegQualityFor originalSize))
  | "webp" => .ok (.webpOpts (webpQualityFor originalSize))
  | "png" => .ok (.oxipng 6)
  | "avif" => .ok (.avifOpts (100 - (avifQualityFor originalSize : Int)))
  | other => .error ("Unsupported format: " ++ other)

/-! ## optimize-routes.ts: the dimension-reduction clamp -/

/-- JS `parseInt(reduction) || 80`: `parsed = none` models `NaN` (unparseable),
and `0` is falsy in JS, so both fall back to the default `80`. -/
def parseIntOrDefault (parsed : Option Int) (d : Int) : Int :=
  match parsed with
  | none => d
  | some v => if v = 0 then d else v

/-- `Math.max(50, Math.min(95, x))` from optimize-routes.ts line 73. -/
def clampReduction (x : Int) : Int := max 50 (min 95 x)

/-- `reductionPercent = shouldReduceDimensions ? Math.max(50, Math.min(95,
parseInt(reduction) || 80)) : 100`. -/
def reductionPercent (shouldReduceDimensions : Bool) (parsed : Option Int) : Int :=
  if shouldReduceDimensions then clampReduction (parseIntOrDefault parsed 80) else 100

/-! ## Job record and MemStorage (shared/schema.ts + server/storage.ts) -/

/-- The `upload_jobs` row. `status` is the raw string of the schema
(`"uploading" | "processing" | "completed" | "failed"`); `results` is the
nullable jsonb column; timestamps are abstracted to a Nat clock. -/
structure UploadJob where
  id : String
  originalFileName : String
  fileSize : Nat
  mimeType : String
  platforms : List String
  status : String
  progress : Nat
  results : Option (List ProcessedResult)
  error : Option String
  createdAt : Nat
  updatedAt : Nat
deriving DecidableEq, Repr

/-- One `storage.updateUploadJob(id, updates)` argument: `Partial<UploadJob>`
restricted to the fields the orchestrator ever writes. `none` means the field
is absent from the update object. -/
structure JobUpdate where
  status : Option String := none
  progress : Option Nat := none
  results : Option (List ProcessedResult) := none
  error : Option String := none
deriving DecidableEq, Repr

/-- `{ ...existingJob, ...updates, updatedAt: new Date() }` from
`MemStorage.updateUploadJob`. -/
def mergeJob (j : UploadJob) (u : JobUpdate) (now : Nat) : UploadJob :=
  { j with
    status := u.status.getD j.status
    progress := u.progress.getD j.progress
    results := match u.results with
      | some rs => some rs
      | none => j.results
    error := match u.error with
      | some e => some e
      | none => j.error
    updatedAt := now }

/-- The in-memory job map, as an association list keyed by job id. -/
def JobMap := List (String × UploadJob)

/-- `this.uploadJobs.get(id)` wrapped by `MemStorage.getUploadJob`. -/
def getUploadJob (s : JobMap) (id : String) : Option UploadJob :=
  (List.find? (fun p => p.1 == id) s).map Prod.snd

/-- `this.uploadJobs.set(id, job)`. -/
def setJob (s : JobMap) (id : String) (j : UploadJob) : JobMap :=
  List.map (fun p => if p.1 == id then (p.1, j) else p) s

/-- `MemStorage.updateUploadJob`: look the job up; if absent return
`undefined`; otherwise merge the partial update (whatever the stored status
is), stamp `updatedAt`, store and return the merged job. -/
def updateUploadJob (s : JobMap) (id : String) (u : JobUpdate) (now : Nat) :
    JobMap × Option UploadJob :=
  match getUploadJob s id with
  | none => (s, none)
  | some j =>
    let j' := mergeJob j u now
    (setJob s id j', some j')

/-- `MemStorage.createUploadJob` applied to the insert record built at
/api/upload (status `"processing"`, progress 0, results and error null). -/
def createUploadJob (id fileName : String) (fileSize : Nat) (mimeType : String)
    (platforms : List String) (now : Nat) : UploadJob :=
  { id := id
    originalFileName := fileName
    fileSize := fileSize
    mimeType := mimeType
    platforms := platforms
    status := "processing"
    progress := 0
    results := none
    error := none
    createdAt := now
    updatedAt := now }

/-! ## processMedia (routes.ts lines 334-464) -/

/-- The file extension chosen for the output path (routes.ts lines 350-364). -/
def extensionFor (mimeType : String) : String :=
  if jsStartsWith mimeType "image/" then
    if mimeType == "image/png" then "png"
    else if mimeType == "image/jpeg" || mimeType == "image/jpg" then "jpg"
    else if mimeType == "image/webp" then "webp"
    else if mimeType == "image/gif" then "gif"
    else "jpg"
  else "mp4"

/-- Environment for one `processMedia` call.
`importThrows` - the synchronous part of the try block (the dynamic
`await import('child_process')` / argument construction) throws;
`pyOutcome` - the result the returned promise settles with: `.ok p` when the
python process exits 0 with a success JSON naming output path `p`, `.error m`
when it exits non-zero, emits an error event, reports failure, or its output
cannot be parsed. -/
structure MediaCallEnv where
  importThrows : Bool
  pyOutcome : Except String String
deriving Repr

/-- `processMedia`. The try block ends with `return new Promise(...)`
(no `await`), so a rejection of that promise is NOT intercepted by the
`catch` at line 427: it propagates to the caller. The catch therefore only
runs when the synchronous prefix throws, and only then does the Sharp
fallback (images) or placeholder (video) run — both of which succeed.
The `subjectAnalysis` hint only alters the spawned process's argv; the
process outcome itself is supplied by the environment. -/
def processMedia (env : MediaCallEnv) (mimeType : String) (dims : Dimensions)
    (platform fmt : String) (timestamp : Nat) (subjectAnalysis : Option String) :
    Except String String :=
  if env.importThrows then
    if jsStartsWith mimeType "image/" then
      .ok ("uploads/processed/" ++ platform ++ "-" ++ fmt ++ "-fallback-"
            ++ toString timestamp ++ ".jpg")
    else
      .ok ("uploads/processed/" ++ platform ++ "-" ++ fmt ++ "-placeholder-"
            ++ toString timestamp ++ ".jpg")
  else
    env.pyOutcome

/-! ## processMediaAsync (routes.ts lines 216-331) -/

/-- `Math.round((p / N) * 60)` for `0 ≤ p ≤ N`: with round-half-up this is
`⌊(60p/N) + 1/2⌋ = ⌊(120p + N) / (2N)⌋`. -/
def jsRound60 (p n : Nat) : Nat := (120 * p + n) / (2 * n)

/-- Per-attempted-task environment: the `processMedia` call's environment plus
the `fs.statSync(outputPath)` outcome (`none` models a throw, which lands in
the same per-task catch). -/
structure TaskEnv where
  media : MediaCallEnv
  statSize : Option Nat
deriving Repr

/-- Environment of one `processMediaAsync` run. `analysisThrows` - the OpenAI
vision block (file read, API call, JSON.parse) threw and was caught at line
257; `analysisJson` - the parsed hint on success; `tasks k` - environment of
the k-th task actually attempted (skipped catalog misses consume no index);
`cleanupThrows` - `fs.unlinkSync(filePath)` at line 322 throws, landing in the
outer catch; `cleanupMsg` - that error's message. -/
structure OrchestratorEnv where
  analysisThrows : Bool
  analysisJson : String
  tasks : Nat → TaskEnv
  cleanupThrows : Bool
  cleanupMsg : String
  timestamp : Nat

/-- `totalFormats`: `Object.entries(selectedFormats).reduce((acc, [pid,
names]) => acc + names.length, 0)` — counts every requested name, valid or
not. -/
def totalFormatsOf (selectedFormats : List (String × List String)) : Nat :=
  selectedFormats.foldl (fun acc p => acc + p.2.length) 0

/-- Mutable state of the processing loop: the local `results` array,
`processedFormats`, the progress updates issued so far in Phase B, and the
count of tasks attempted (indexing `OrchestratorEnv.tasks`). -/
structure LoopState where
  results : List ProcessedResult
  processedFormats : Nat
  updates : List JobUpdate
  taskIdx : Nat
deriving Repr

/-- The subject-analysis block (routes.ts lines 224-261): on any throw the
catch logs and leaves `subjectAnalysis = null`. Only image mime types run it. -/
def analysisStep (env : OrchestratorEnv) (mimeType : String) : Option String :=
  if jsStartsWith mimeType "image/" then
    if env.analysisThrows then none else some env.analysisJson
  else none

/-- The body of the inner loop for one resolved (platform, format) pair
(routes.ts lines 284-311): on success push a `ProcessedResult`, bump
`processedFormats` and issue `{ progress: 30 + Math.round(processed/total*60) }`;
any throw from `processMedia` or `statSync` is caught and only logged. -/
def runFormat (env : OrchestratorEnv) (total : Nat) (mimeType : String)
    (hint : Option String) (platform : PlatformConfig) (fmt : FormatSpec)
    (st : LoopState) : LoopState :=
  let t := env.tasks st.taskIdx
  match processMedia t.media mimeType fmt.dimensions platform.id fmt.name
      env.timestamp hint with
  | .error _ => { st with taskIdx := st.taskIdx + 1 }
  | .ok outputPath =>
    match t.statSize with
    | none => { st with taskIdx := st.taskIdx + 1 }
    | some size =>
      let r : ProcessedResult :=
        { platform := platform.name
          format := fmt.name
          dimensions := fmt.dimensions
          fileSize := size
          filePath := outputPath
          optimized := true }
      let processed := st.processedFormats + 1
      { results := st.results ++ [r]
        processedFormats := processed
        updates := st.updates ++ [{ progress := some (30 + jsRound60 processed total) }]
        taskIdx := st.taskIdx + 1 }

/-- One entry of `selectedFormats` (routes.ts lines 276-312): resolve the
platform (`if (!platform) continue`), then each format name
(`if (!format) continue`), running resolved tasks. -/
def runPlatform (env : OrchestratorEnv) (total : Nat) (mimeType : String)
    (hint : Option String) (entry : String × List String) (st : LoopState) :
    LoopState :=
  match PLATFORM_CONFIGS.find? (fun p => p.id == entry.1) with
  | none => st
  | some platform =>
    entry.2.foldl
      (fun st formatName =>
        match platform.formats.find? (fun f => f.name == formatName) with
        | none => st
        | some fmt => runFormat env total mimeType hint platform fmt st)
      st

/-- Final loop state of a `processMediaAsync` run. -/
def finalLoopState (env : OrchestratorEnv) (mimeType : String)
    (selectedFormats : List (String × List String)) : LoopState :=
  let total := totalFormatsOf selectedFormats
  let hint := analysisStep env mimeType
  selectedFormats.foldl
    (fun st entry => runPlatform env total mimeType hint entry st)
    { results := [], processedFormats := 0, updates := [], taskIdx := 0 }

/-- The ordered sequence of `storage.updateUploadJob` calls one
`processMediaAsync` run issues: `{status:"processing", progress:10}`, then
`{progress:30}` (Phase A checkpoint, written whether or not analysis
succeeded), the Phase-B per-success updates, the terminal
`{status:"completed", progress:100, results}`, and — only when the
post-completion `fs.unlinkSync` throws — a trailing
`{status:"failed", error}` from the outer catch. -/
def processMediaAsync (env : OrchestratorEnv) (mimeType : String)
    (selectedFormats : List (String × List String)) : List JobUpdate :=
  let st := finalLoopState env mimeType selectedFormats
  let base : List JobUpdate :=
    [{ status := some "processing", progress := some 10 },
     { progress := some 30 }]
    ++ st.updates
    ++ [{ status := some "completed", progress := some 100, results := some st.results }]
  if env.cleanupThrows then
    base ++ [{ status := some "failed", error := some env.cleanupMsg }]
  else base

/-- States a reader of the Job Store can observe: the created job followed by
the job after each successive update, with a strictly increasing clock. -/
def jobStates (j : UploadJob) : List JobUpdate → List UploadJob
  | [] => [j]
  | u :: us => j :: jobStates (mergeJob j u (j.updatedAt + 1)) us

/-- The job after every update of a run has been applied (what the final
reader fetch returns). -/
def applyAllUpdates (j : UploadJob) : List JobUpdate → UploadJob
  | [] => j
  | u :: us => applyAllUpdates (mergeJob j u (j.updatedAt + 1)) us

/-- The Phase-B update issued after the p-th successful task of a job with
`total` requested formats. -/
def phaseBUpdate (total p : Nat) : JobUpdate :=
  { progress := some (30 + jsRound60 p total) }

/-- The last progress value written before the terminal update: the last
Phase-B value, or the Phase-A checkpoint 30 when Phase B issued none. -/
def lastPhaseBProgress (env : OrchestratorEnv) (mimeType : String)
    (cfg : List (String × List String)) : Nat :=
  (((finalLoopState env mimeType cfg).updates).filterMap (fun u => u.progress)).getLastD 30

/-- A task environment under which the per-task try block completes: either
the synchronous prefix threw (so the fallback produced a file) or the python
promise resolved, and `statSync` returned a size. -/
def taskYields (t : TaskEnv) : Bool :=
  (t.media.importThrows ||
    (match t.media.pyOutcome with
     | .ok _ => true
     | .error _ => false)) && t.statSize.isSome

/-- A `selectedFormats` entry whose platform id is in the catalog and whose
every format name is in that platform's format list (no `continue` fires). -/
def entryValid (e : String × List String) : Bool :=
  match PLATFORM_CONFIGS.find? (fun p => p.id == e.1) with
  | none => false
  | some p => e.2.all (fun n => (p.formats.find? (fun f => f.name == n)).isSome)

/-- How many of an entry's format names resolve against the catalog (zero
when the platform id itself is unknown). -/
def entryResolvedCount (e : String × List String) : Nat :=
  match PLATFORM_CONFIGS.find? (fun p => p.id == e.1) with
  | none => 0
  | some p =>
    (e.2.filter (fun n => (p.formats.find? (fun f => f.name == n)).isSome)).length

/-- How many requested (platform, format) names resolve against the catalog —
the number of tasks the loop actually attempts; the remaining
`totalFormatsOf - resolvedCountOf` entries are skipped by `continue`. -/
def resolvedCountOf (cfg : List (String × List String)) : Nat :=
  cfg.foldl (fun acc e => acc + entryResolvedCount e) 0

/-- Loop invariant of the per-format fan-out: the Phase-B updates issued so
far are exactly one per success, carrying `30 + round(60·p/total)` for
`p = 1..processedFormats`; one `ProcessedResult` exists per success; and no
more tasks have succeeded than were attempted. -/
def LoopInv (total : Nat) (st : LoopState) : Prop :=
  st.updates = (List.range' 1 st.processedFormats).map (phaseBUpdate total)
  ∧ st.results.length = st.processedFormats
  ∧ st.processedFormats ≤ st.taskIdx

/-- Progress values of an update sequence are non-decreasing starting from
`p` (an update without a progress field leaves the value unchanged). -/
def updatesProgressMonotone : Nat → List JobUpdate → Prop
  | _, [] => True
  | p, u :: us =>
    match u.progress with
    | none => updatesProgressMonotone p us
    | some v => p ≤ v ∧ updatesProgressMonotone v us

/-! ## The download route (routes.ts lines 165-185) -/

/-- JS `String.prototype.includes` on the underlying character lists. -/
def hasSubstr : List Char → List Char → Bool
  | [], needle => needle.isEmpty
  | c :: t, needle => needle.isPrefixOf (c :: t) || hasSubstr t needle

/-- `r.filePath.includes(filename)`. -/
def strIncludes (hay needle : String) : Bool := hasSubstr hay.data needle.data

/-- `job.results.find(r => r.filePath.includes(filename))`. -/
def findDownloadResult (rs : List ProcessedResult) (filename : String) :
    Option ProcessedResult :=
  rs.find? (fun r => strIncludes r.filePath filename)

inductive DownloadResponse where
  | notFound
  | fileDownload (filePath downloadName : String)
deriving DecidableEq, Repr

/-- GET /api/download/:jobId/:filename — `diskExists` models
`fs.existsSync`. 404 when the job is missing, its `results` is null, no
result's `filePath` contains the filename, or the matched path is gone;
otherwise `res.download(result.filePath, filename)`. -/
def downloadRoute (s : JobMap) (jobId filename : String)
    (diskExists : String → Bool) : DownloadResponse :=
  match getUploadJob s jobId with
  | none => .notFound
  | some job =>
    match job.results with
    | none => .notFound
    | some rs =>
      match findDownloadResult rs filename with
      | none => .notFound
      | some r =>
        if diskExists r.filePath then .fileDownload r.filePath filename
        else .notFound

/-! ## Concrete sample inputs used by witnesses and counterexamples -/

def okMediaEnv : MediaCallEnv :=
  { importThrows := false, pyOutcome := .ok "uploads/processed/out.jpg" }

def okTaskEnv : TaskEnv := { media := okMediaEnv, statSize := some 12345 }

/-- A task whose python process exits non-zero: the per-call promise rejects. -/
def failTaskEnv : TaskEnv :=
  { media := { importThrows := false,
               pyOutcome := .error "Processing failed with code 1" },
    statSize := some 12345 }

def envAllOk : OrchestratorEnv :=
  { analysisThrows := false, analysisJson := "{}",
    tasks := fun _ => okTaskEnv,
    cleanupThrows := false, cleanupMsg := "", timestamp := 1 }

def envTaskFail : OrchestratorEnv := { envAllOk with tasks := fun _ => failTaskEnv }

def envCleanupFail : OrchestratorEnv :=
  { envAllOk with cleanupThrows := true,
                  cleanupMsg := "ENOENT: no such file or directory" }

def cfgOneSquare : List (String × List String) := [("instagram", ["Square"])]

/-- 200 requested formats: 199 valid duplicates of instagram Square plus one
name absent from instagram's format list. -/
def cfgBig : List (String × List String) :=
  [("instagram", List.replicate 199 "Square" ++ ["Nope"])]

/-- Two requested formats, one of which is skipped. -/
def cfgSkip : List (String × List String) := [("instagram", ["Square", "Nope"])]

def sampleJob : UploadJob :=
  createUploadJob "job1" "photo.jpg" 1000 "image/jpeg" ["instagram"] 0

def completedJob : UploadJob :=
  { sampleJob with status := "completed", progress := 100, results := some [] }

def storeWithCompleted : JobMap := [("job1", completedJob)]

/-! ## General helper lemmas -/

theorem foldl_preserve {α σ : Type _} (P : σ → Prop) (f : σ → α → σ)
    (h : ∀ s a, P s → P (f s a)) :
    ∀ (l : List α) (s : σ), P s → P (l.foldl f s) := by
  intro l
  induction l with
  | nil => intro s hs; simpa using hs
  | cons a t ih => intro s hs; simpa using ih (f s a) (h s a hs)

theorem find?_eq_some_first {α : Type _} (p : α → Bool) (l : List α) (a : α) :
    l.find? p = some a ↔
      ∃ l₁ l₂, l = l₁ ++ a :: l₂ ∧ p a = true ∧ ∀ x ∈ l₁, p x = false := by
  induction l with
  | nil => simp
  | cons b t ih =>
    by_cases hb : p b = true
    · rw [List.find?_cons_of_pos _ hb]
      constructor
      · intro h
        injection h with h
        subst h
        exact ⟨[], t, rfl, hb, by simp⟩
      · rintro ⟨l₁, l₂, hl, hpa, hfalse⟩
        cases l₁ with
        | nil =>
          simp only [List.nil_append, List.cons.injEq] at hl
          rw [hl.1]
        | cons c l₁ =>
          simp only [List.cons_append, List.cons.injEq] at hl
          have : p b = false := hl.1 ▸ hfalse c (by simp)
          rw [this] at hb
          cases hb
    · rw [List.find?_cons_of_neg _ (by simpa using hb)]
      rw [ih]
      constructor
      · rintro ⟨l₁, l₂, hl, hpa, hf⟩
        refine ⟨b :: l₁, l₂, by simp [hl], hpa, ?_⟩
        intro x hx
        rcases List.mem_cons.mp hx with hx | hx
        · subst hx; simpa using hb
        · exact hf x hx
      · rintro ⟨l₁, l₂, hl, hpa, hf⟩
        cases l₁ with
        | nil =>
          simp only [List.nil_append, List.cons.injEq] at hl
          rw [← hl.1] at hpa
          exact absurd hpa hb
        | cons c l₁ =>
          simp only [List.cons_append, List.cons.injEq] at hl
          exact ⟨l₁, l₂, hl.2, hpa, fun x hx => hf x (by simp [hx])⟩

theorem getUploadJob_setJob (s : JobMap) (id : String) (j' : UploadJob)
    (h : (getUploadJob s id).isSome) :
    getUploadJob (setJob s id j') id = some j' := by
  induction s with
  | nil => simp [getUploadJob] at h
  | cons q t ih =>
    cases hq : (q.1 == id) with
    | true =>
      simp only [getUploadJob, setJob, List.map_cons, hq, if_true]
      rw [List.find?_cons_of_pos _ (by simpa using hq)]
      rfl
    | false =>
      simp only [getUploadJob, setJob, List.map_cons, hq, if_false]
      rw [List.find?_cons_of_neg _ (by simp [hq])]
      simp only [getUploadJob] at ih
      apply ih
      simp only [getUploadJob] at h
      rw [List.find?_cons_of_neg _ (by simp [hq])] at h
      exact h

/-! ## Claim theorems -/

/-- Claim C9: the adaptive quality in `getOptimalEncodingOptions` is a
two-valued function of input size — JPEG 85 for inputs of at most 2MB, 75
otherwise; WebP 85/80; AVIF 80/75 — and the `> 5MB` tiers (70, 75, 70) are
unreachable because the `> 2MB` branch is tested first and subsumes them. -/
theorem C9_adaptive_quality_two_valued :
    ∀ s : Nat,
      getOptimalEncodingOptions "jpeg" s = .ok (.mozjpeg (jpegQualityFor s))
      ∧ jpegQualityFor s = (if s ≤ 2 * 1024 * 1024 then 85 else 75)
      ∧ jpegQualityFor s ≠ 70
      ∧ getOptimalEncodingOptions "webp" s = .ok (.webpOpts (webpQualityFor s))
      ∧ webpQualityFor s = (if s ≤ 2 * 1024 * 1024 then 85 else 80)
      ∧ webpQualityFor s ≠ 75
      ∧ getOptimalEncodingOptions "avif" s = .ok (.avifOpts (100 - (avifQualityFor s : Int)))
      ∧ avifQualityFor s = (if s ≤ 2 * 1024 * 1024 then 80 else 75)
      ∧ avifQualityFor s ≠ 70 := by
  intro s
  refine ⟨rfl, ?_, ?_, rfl, ?_, ?_, rfl, ?_, ?_⟩ <;>
    simp only [jpegQualityFor, webpQualityFor, avifQualityFor] <;>
    split_ifs <;> omega

/-- Claim C7 counterexample: a requested reduction of 0 is below 50, yet the
applied percentage is 80 (JS `parseInt(reduction) || 80` treats 0 as falsy),
not the claimed clamp result 50. -/
theorem C7_counterexample :
    (0 : Int) < 50
    ∧ reductionPercent true (some 0) = 80
    ∧ reductionPercent true (some 0) ≠ 50 := by
  decide

/-- Claim C7 (amended): the applied percentage always lies in [50, 95];
values that parse to a nonzero integer are clamped (below 50 becomes 50,
above 95 becomes 95); an unparseable value or one that parses to 0 defaults
to 80 before clamping. -/
theorem C7_reduction_clamped_amended :
    (∀ parsed : Option Int,
      50 ≤ reductionPercent true parsed ∧ reductionPercent true parsed ≤ 95)
    ∧ (∀ v : Int, v ≠ 0 → v < 50 → reductionPercent true (some v) = 50)
    ∧ (∀ v : Int, 95 < v → reductionPercent true (some v) = 95)
    ∧ reductionPercent true none = 80
    ∧ reductionPercent true (some 0) = 80 := by
  refine ⟨?_, ?_, ?_, by decide, by decide⟩
  · rintro (_ | v)
    · decide
    · simp only [reductionPercent, clampReduction, parseIntOrDefault, if_true]
      split_ifs <;> simp [Int.max_def, Int.min_def] <;> split_ifs <;> omega
  · intro v hv hlt
    simp only [reductionPercent, clampReduction, parseIntOrDefault, if_true, hv, if_false]
    simp [Int.max_def, Int.min_def]
    split_ifs <;> omega
  · intro v hv
    have hv0 : ¬ v = 0 := by omega
    simp only [reductionPercent, clampReduction, parseIntOrDefault, if_true, hv0, if_false]
    simp [Int.max_def, Int.min_def]
    split_ifs <;> omega

/-- Claim C7 witness: a nonzero value below 50 is clamped to 50 and a value
above 95 is clamped to 95. -/
theorem C7_reduction_clamped_amended_witness :
    reductionPercent true (some 10) = 50 ∧ reductionPercent true (some 120) = 95 :=
  ⟨C7_reduction_clamped_amended.2.1 10 (by decide) (by decide),
   C7_reduction_clamped_amended.2.2.1 120 (by decide)⟩

/-- Claim C2 (code-bug evidence): when the python process fails, the
rejection of the promise returned from inside the try block bypasses the
catch, so `processMedia` fails instead of running the Sharp baseline — the
baseline runs only when the synchronous prefix (the dynamic import) throws —
and the task contributes no `FormatResult` while the job still completes
with an empty results list. -/
theorem C2_fallback_unreachable_on_python_failure :
    processMedia { importThrows := false, pyOutcome := .error "Processing failed with code 1" }
        "image/jpeg" { width := 1080, height := 1080 } "instagram" "Square" 1 none
      = .error "Processing failed with code 1"
    ∧ processMedia { importThrows := true, pyOutcome := .error "Processing failed with code 1" }
        "image/jpeg" { width := 1080, height := 1080 } "instagram" "Square" 1 none
      = .ok "uploads/processed/instagram-Square-fallback-1.jpg"
    ∧ (finalLoopState envTaskFail "image/jpeg" cfgOneSquare).results = []
    ∧ (processMediaAsync envTaskFail "image/jpeg" cfgOneSquare).getLast?
      = some { status := some "completed", progress := some 100, results := some [] } :=
  ⟨rfl, rfl, rfl, rfl⟩

/-- Claim C4 counterexample: the store holds a job whose status is the
terminal `"completed"`, yet `updateUploadJob` applies a progress write and a
subsequent reader observes the mutation. -/
theorem C4_counterexample :
    completedJob.status = "completed"
    ∧ getUploadJob (updateUploadJob storeWithCompleted "job1" { progress := some 5 } 7).1 "job1"
      = some { completedJob with progress := 5, updatedAt := 7 } :=
  ⟨rfl, rfl⟩

/-- Claim C4 (amended): `MemStorage.updateUploadJob` never inspects the
stored status — for any stored job, terminal or not, it merges the partial
update, stamps `updatedAt`, stores the merged job, and readers observe it. -/
theorem C4_update_ignores_terminal_status :
    ∀ (s : JobMap) (id : String) (u : JobUpdate) (now : Nat) (j : UploadJob),
      getUploadJob s id = some j →
      (updateUploadJob s id u now).2 = some (mergeJob j u now)
      ∧ getUploadJob (updateUploadJob s id u now).1 id = some (mergeJob j u now) := by
  intro s id u now j h
  have hu : updateUploadJob s id u now
      = (setJob s id (mergeJob j u now), some (mergeJob j u now)) := by
    simp only [updateUploadJob, h]
  rw [hu]
  exact ⟨rfl, getUploadJob_setJob s id _ (by rw [h]; rfl)⟩

/-- Claim C4 witness: the amended theorem applied to a store holding a
completed job. -/
theorem C4_update_ignores_terminal_status_witness :
    (updateUploadJob storeWithCompleted "job1" { progress := some 5 } 7).2
      = some (mergeJob completedJob { progress := some 5 } 7) :=
  (C4_update_ignores_terminal_status storeWithCompleted "job1"
    { progress := some 5 } 7 completedJob rfl).1

/-- Claim C10: the download route serves the first `FormatResult` whose
`filePath` contains the requested filename as a substring (under the
requested name), and responds 404 exactly when the job is missing, its
results field is null, no result's path contains the filename, or the
matched path no longer exists on disk. -/
theorem C10_download_first_match_or_404 :
    ∀ (s : JobMap) (jobId filename : String) (diskExists : String → Bool),
      (∀ rs r, findDownloadResult rs filename = some r ↔
        ∃ l₁ l₂, rs = l₁ ++ r :: l₂ ∧ strIncludes r.filePath filename = true
          ∧ ∀ x ∈ l₁, strIncludes x.filePath filename = false)
      ∧ (∀ fp dn, downloadRoute s jobId filename diskExists = .fileDownload fp dn ↔
          ∃ job rs r, getUploadJob s jobId = some job ∧ job.results = some rs
            ∧ findDownloadResult rs filename = some r
            ∧ diskExists r.filePath = true ∧ fp = r.filePath ∧ dn = filename)
      ∧ (downloadRoute s jobId filename diskExists = .notFound ↔
          getUploadJob s jobId = none
          ∨ ∃ job, getUploadJob s jobId = some job ∧
              (job.results = none
               ∨ ∃ rs, job.results = some rs ∧
                   (findDownloadResult rs filename = none
                    ∨ ∃ r, findDownloadResult rs filename = some r
                        ∧ diskExists r.filePath = false))) := by
  intro s jobId filename diskExists
  refine ⟨fun rs r => find?_eq_some_first _ rs r, ?_, ?_⟩
  · intro fp dn
    cases h1 : getUploadJob s jobId with
    | none => simp [downloadRoute, h1]
    | some job =>
      cases h2 : job.results with
      | none => simp [downloadRoute, h1, h2]
      | some rs =>
        cases h3 : findDownloadResult rs filename with
        | none => simp [downloadRoute, h1, h2, h3]
        | some r =>
          cases hd : diskExists r.filePath with
          | false => simp [downloadRoute, h1, h2, h3, hd]
          | true =>
            simp only [downloadRoute, h1, h2, h3, hd, if_true]
            constructor
            · intro he
              injection he with he1 he2
              exact ⟨job, rs, r, rfl, h2, h3, hd, he1.symm, he2.symm⟩
            · rintro ⟨job', rs', r', hj, hr, hf, _, hfp, hdn⟩
              injection hj with hj
              subst hj
              rw [h2] at hr
              injection hr with hr
              subst hr
              rw [h3] at hf
              injection hf with hf
              subst hf
              rw [hfp, hdn]
  · cases h1 : getUploadJob s jobId with
    | none => simp [downloadRoute, h1]
    | some job =>
      cases h2 : job.results with
      | none => simp [downloadRoute, h1, h2]
      | some rs =>
        cases h3 : findDownloadResult rs filename with
        | none => simp [downloadRoute, h1, h2, h3]
        | some r =>
          cases hd : diskExists r.filePath with
          | false => simp [downloadRoute, h1, h2, h3, hd]
          | true => simp [downloadRoute, h1, h2, h3, hd]

/-! ## Arithmetic of the progress formula -/

theorem jsRound60_mono (n p q : Nat) (h : p ≤ q) : jsRound60 p n ≤ jsRound60 q n :=
  Nat.div_le_div_right (by omega)

theorem jsRound60_zero (n : Nat) : jsRound60 0 n = 0 := by
  unfold jsRound60
  rcases Nat.eq_zero_or_pos n with h | h
  · subst h; rfl
  · exact Nat.div_eq_of_lt (by omega)

theorem jsRound60_le_60 (p n : Nat) (h : p ≤ n) : jsRound60 p n ≤ 60 := by
  unfold jsRound60
  rcases Nat.eq_zero_or_pos n with hn | hn
  · subst hn; simp at h; subst h; simp
  · have hlt : 120 * p + n < 61 * (2 * n) := by omega
    have := (Nat.div_lt_iff_lt_mul (by omega : 0 < 2 * n)).mpr hlt
    omega

theorem jsRound60_self (n : Nat) (h : 0 < n) : jsRound60 n n = 60 := by
  unfold jsRound60
  have h1 : 120 * n + n = n + 2 * n * 60 := by ring
  rw [h1, Nat.add_mul_div_left _ _ (by omega : 0 < 2 * n),
      Nat.div_eq_of_lt (by omega : n < 2 * n)]

theorem jsRound60_lt_60 (p n : Nat) (h : 120 * p < 119 * n) : jsRound60 p n < 60 := by
  have hn : 0 < n := by by_contra hc; omega
  unfold jsRound60
  exact (Nat.div_lt_iff_lt_mul (by omega : 0 < 2 * n)).mpr (by omega)

/-! ## Structure of the fan-out loop -/

theorem runFormat_eq (env : OrchestratorEnv) (total : Nat) (mt : String)
    (hint : Option String) (pl : PlatformConfig) (f : FormatSpec) (st : LoopState) :
    (taskYields (env.tasks st.taskIdx) = false
      ∧ runFormat env total mt hint pl f st = { st with taskIdx := st.taskIdx + 1 })
    ∨ (taskYields (env.tasks st.taskIdx) = true
      ∧ ∃ r, runFormat env total mt hint pl f st =
          { results := st.results ++ [r]
            processedFormats := st.processedFormats + 1
            updates := st.updates ++ [phaseBUpdate total (st.processedFormats + 1)]
            taskIdx := st.taskIdx + 1 }) := by
  cases himp : (env.tasks st.taskIdx).media.importThrows with
  | true =>
    cases hss : (env.tasks st.taskIdx).statSize with
    | none =>
      left
      refine ⟨by simp [taskYields, himp, hss], ?_⟩
      simp only [runFormat, processMedia, himp, if_true, hss]
      cases hj : jsStartsWith mt "image/" <;> simp
    | some sz =>
      right
      refine ⟨by simp [taskYields, himp, hss], ?_⟩
      simp only [runFormat, processMedia, himp, if_true, hss]
      cases hj : jsStartsWith mt "image/"
      · exact ⟨{ platform := pl.name, format := f.name, dimensions := f.dimensions,
                 fileSize := sz,
                 filePath := "uploads/processed/" ++ pl.id ++ "-" ++ f.name
                   ++ "-placeholder-" ++ toString env.timestamp ++ ".jpg",
                 optimized := true }, by simp [phaseBUpdate]⟩
      · exact ⟨{ platform := pl.name, format := f.name, dimensions := f.dimensions,
                 fileSize := sz,
                 filePath := "uploads/processed/" ++ pl.id ++ "-" ++ f.name
                   ++ "-fallback-" ++ toString env.timestamp ++ ".jpg",
                 optimized := true }, by simp [phaseBUpdate]⟩
  | false =>
    cases hpy : (env.tasks st.taskIdx).media.pyOutcome with
    | error e =>
      left
      refine ⟨by simp [taskYields, himp, hpy], ?_⟩
      simp [runFormat, processMedia, himp, hpy]
    | ok p =>
      cases hss : (env.tasks st.taskIdx).statSize with
      | none =>
        left
        refine ⟨by simp [taskYields, himp, hpy, hss], ?_⟩
        simp [runFormat, processMedia, himp, hpy, hss]
      | some sz =>
        right
        refine ⟨by simp [taskYields, himp, hpy, hss], ?_⟩
        exact ⟨{ platform := pl.name, format := f.name, dimensions := f.dimensions,
                 fileSize := sz, filePath := p, optimized := true },
               by simp [runFormat, processMedia, himp, hpy, hss, phaseBUpdate]⟩

theorem runFormat_inv (env : OrchestratorEnv) (total : Nat) (mt : String)
    (hint : Option String) (pl : PlatformConfig) (f : FormatSpec) (st : LoopState)
    (h : LoopInv total st) : LoopInv total (runFormat env total mt hint pl f st) := by
  rcases runFormat_eq env total mt hint pl f st with ⟨_, heq⟩ | ⟨_, r, heq⟩ <;> rw [heq]
  · refine ⟨h.1, h.2.1, ?_⟩
    have := h.2.2
    simp
    omega
  · refine ⟨?_, ?_, ?_⟩
    · rw [h.1]
      rw [show st.processedFormats + 1 = st.processedFormats + 1 from rfl,
          List.range'_concat]
      simp [Nat.add_comm]
    · simp [h.2.1]
    · have := h.2.2
      simp
      omega

theorem runFormat_taskIdx (env : OrchestratorEnv) (total : Nat) (mt : String)
    (hint : Option String) (pl : PlatformConfig) (f : FormatSpec) (st : LoopState) :
    (runFormat env total mt hint pl f st).taskIdx = st.taskIdx + 1 := by
  rcases runFormat_eq env total mt hint pl f st with ⟨_, heq⟩ | ⟨_, r, heq⟩ <;> rw [heq]

theorem runPlatform_inv (env : OrchestratorEnv) (total : Nat) (mt : String)
    (hint : Option String) (e : String × List String) (st : LoopState)
    (h : LoopInv total st) : LoopInv total (runPlatform env total mt hint e st) := by
  unfold runPlatform
  cases hp : PLATFORM_CONFIGS.find? (fun p => p.id == e.1) with
  | none => exact h
  | some pl =>
    refine foldl_preserve (LoopInv total) _ ?_ e.2 st h
    intro s n hs
    cases hf : pl.formats.find? (fun f2 => f2.name == n) with
    | none => exact hs
    | some f2 => exact runFormat_inv env total mt hint pl f2 s hs

theorem finalLoopState_inv (env : OrchestratorEnv) (mt : String)
    (cfg : List (String × List String)) :
    LoopInv (totalFormatsOf cfg) (finalLoopState env mt cfg) := by
  unfold finalLoopState
  exact foldl_preserve (LoopInv (totalFormatsOf cfg)) _
    (fun s e hs => runPlatform_inv env (totalFormatsOf cfg) mt (analysisStep env mt) e s hs)
    cfg _ ⟨rfl, rfl, Nat.le_refl 0⟩

theorem foldNames_taskIdx (env : OrchestratorEnv) (total : Nat) (mt : String)
    (hint : Option String) (pl : PlatformConfig) :
    ∀ (names : List String) (st : LoopState),
      (names.foldl
        (fun st formatName =>
          match pl.formats.find? (fun f => f.name == formatName) with
          | none => st
          | some fmt => runFormat env total mt hint pl fmt st) st).taskIdx
      = st.taskIdx
        + (names.filter (fun n => (pl.formats.find? (fun f => f.name == n)).isSome)).length := by
  intro names
  induction names with
  | nil => intro st; simp
  | cons n ns ih =>
    intro st
    rw [List.foldl_cons, List.filter_cons]
    cases hf : pl.formats.find? (fun f => f.name == n) with
    | none => simp only [hf, Option.isSome_none, if_false]; exact ih st
    | some f2 =>
      simp only [hf, Option.isSome_some, if_true, List.length_cons]
      rw [ih]
      rw [runFormat_taskIdx]
      omega

theorem runPlatform_taskIdx (env : OrchestratorEnv) (total : Nat) (mt : String)
    (hint : Option String) (e : String × List String) (st : LoopState) :
    (runPlatform env total mt hint e st).taskIdx = st.taskIdx + entryResolvedCount e := by
  unfold runPlatform entryResolvedCount
  cases hp : PLATFORM_CONFIGS.find? (fun p => p.id == e.1) with
  | none => simp
  | some pl => exact foldNames_taskIdx env total mt hint pl e.2 st

theorem foldl_add_shift {α : Type _} (g : α → Nat) :
    ∀ (l : List α) (a : Nat),
      l.foldl (fun acc x => acc + g x) a = a + l.foldl (fun acc x => acc + g x) 0 := by
  intro l
  induction l with
  | nil => intro a; simp
  | cons x t ih =>
    intro a
    rw [List.foldl_cons, List.foldl_cons, ih (a + g x), ih (0 + g x)]
    omega

theorem totalFormatsOf_cons (e : String × List String) (cfg : List (String × List String)) :
    totalFormatsOf (e :: cfg) = e.2.length + totalFormatsOf cfg := by
  unfold totalFormatsOf
  rw [List.foldl_cons, foldl_add_shift]
  omega

theorem resolvedCountOf_cons (e : String × List String) (cfg : List (String × List String)) :
    resolvedCountOf (e :: cfg) = entryResolvedCount e + resolvedCountOf cfg := by
  unfold resolvedCountOf
  rw [List.foldl_cons, foldl_add_shift]
  omega

theorem foldEntries_taskIdx (env : OrchestratorEnv) (total : Nat) (mt : String)
    (hint : Option String) :
    ∀ (cfg : List (String × List String)) (st : LoopState),
      (cfg.foldl (fun st entry => runPlatform env total mt hint entry st) st).taskIdx
      = st.taskIdx + resolvedCountOf cfg := by
  intro cfg
  induction cfg with
  | nil => intro st; simp [resolvedCountOf]
  | cons e t ih =>
    intro st
    rw [List.foldl_cons, ih, runPlatform_taskIdx, resolvedCountOf_cons]
    omega

theorem finalLoopState_taskIdx (env : OrchestratorEnv) (mt : String)
    (cfg : List (String × List String)) :
    (finalLoopState env mt cfg).taskIdx = resolvedCountOf cfg := by
  unfold finalLoopState
  rw [foldEntries_taskIdx]
  simp

theorem entryResolvedCount_le (e : String × List String) :
    entryResolvedCount e ≤ e.2.length := by
  unfold entryResolvedCount
  cases hp : PLATFORM_CONFIGS.find? (fun p => p.id == e.1) with
  | none => exact Nat.zero_le _
  | some pl => exact List.length_filter_le _ _

theorem resolvedCountOf_le (cfg : List (String × List String)) :
    resolvedCountOf cfg ≤ totalFormatsOf cfg := by
  induction cfg with
  | nil => simp [resolvedCountOf, totalFormatsOf]
  | cons e t ih =>
    rw [resolvedCountOf_cons, totalFormatsOf_cons]
    have := entryResolvedCount_le e
    omega

theorem foldNames_valid_processed (env : OrchestratorEnv) (total : Nat) (mt : String)
    (hint : Option String) (pl : PlatformConfig)
    (hy : ∀ k, taskYields (env.tasks k) = true) :
    ∀ (names : List String) (st : LoopState),
      names.all (fun n => (pl.formats.find? (fun f => f.name == n)).isSome) = true →
      (names.foldl
        (fun st formatName =>
          match pl.formats.find? (fun f => f.name == formatName) with
          | none => st
          | some fmt => runFormat env total mt hint pl fmt st) st).processedFormats
      = st.processedFormats + names.length := by
  intro names
  induction names with
  | nil => intro st _; simp
  | cons n ns ih =>
    intro st hall
    rw [List.all_cons] at hall
    have hn := (Bool.and_eq_true _ _).mp hall
    obtain ⟨f2, hf⟩ := Option.isSome_iff_exists.mp hn.1
    rw [List.foldl_cons]
    simp only [hf]
    rcases runFormat_eq env total mt hint pl f2 st with ⟨hfail, _⟩ | ⟨_, r, heq⟩
    · rw [hy st.taskIdx] at hfail
      cases hfail
    · rw [heq, ih _ hn.2]
      simp
      omega

theorem runPlatform_valid_processed (env : OrchestratorEnv) (total : Nat) (mt : String)
    (hint : Option String) (e : String × List String) (st : LoopState)
    (hv : entryValid e = true) (hy : ∀ k, taskYields (env.tasks k) = true) :
    (runPlatform env total mt hint e st).processedFormats
      = st.processedFormats + e.2.length := by
  unfold runPlatform
  unfold entryValid at hv
  cases hp : PLATFORM_CONFIGS.find? (fun p => p.id == e.1) with
  | none => rw [hp] at hv; cases hv
  | some pl =>
    rw [hp] at hv
    exact foldNames_valid_processed env total mt hint pl hy e.2 st hv

theorem foldEntries_valid_processed (env : OrchestratorEnv) (total : Nat) (mt : String)
    (hint : Option String) (hy : ∀ k, taskYields (env.tasks k) = true) :
    ∀ (cfg : List (String × List String)) (st : LoopState),
      cfg.all entryValid = true →
      (cfg.foldl (fun st entry => runPlatform env total mt hint entry st) st).processedFormats
      = st.processedFormats + totalFormatsOf cfg := by
  intro cfg
  induction cfg with
  | nil => intro st _; simp [totalFormatsOf]
  | cons e t ih =>
    intro st hall
    rw [List.all_cons] at hall
    have he := (Bool.and_eq_true _ _).mp hall
    rw [List.foldl_cons, ih _ he.2,
        runPlatform_valid_processed env total mt hint e st he.1 hy,
        totalFormatsOf_cons]
    omega

theorem finalLoopState_valid_processed (env : OrchestratorEnv) (mt : String)
    (cfg : List (String × List String)) (hv : cfg.all entryValid = true)
    (hy : ∀ k, taskYields (env.tasks k) = true) :
    (finalLoopState env mt cfg).processedFormats = totalFormatsOf cfg := by
  unfold finalLoopState
  rw [foldEntries_valid_processed env (totalFormatsOf cfg) mt (analysisStep env mt) hy cfg _ hv]
  simp

theorem getLast?_map_range1 {α : Type _} (g : Nat → α) (S : Nat) (hS : 0 < S) :
    ((List.range' 1 S).map g).getLast? = some (g S) := by
  cases S with
  | zero => cases hS
  | succ S' =>
    rw [List.range'_concat]
    simp [Nat.add_comm]

/-- Claim C1 counterexample: a job with `totalFormats = 1` whose single,
catalog-valid task throws. The failure is caught and logged but NOT counted:
Phase B issues zero progress updates (the claim demands exactly
`totalFormats = 1`, counting the failure), and no Phase-B value 90 is ever
written — the trace goes straight from the Phase-A checkpoint to the
terminal write. -/
theorem C1_counterexample :
    totalFormatsOf cfgOneSquare = 1
    ∧ cfgOneSquare.all entryValid = true
    ∧ (finalLoopState envTaskFail "image/jpeg" cfgOneSquare).updates.length = 0
    ∧ (finalLoopState envTaskFail "image/jpeg" cfgOneSquare).processedFormats = 0
    ∧ processMediaAsync envTaskFail "image/jpeg" cfgOneSquare
      = [{ status := some "processing", progress := some 10 },
         { progress := some 30 },
         { status := some "completed", progress := some 100, results := some [] }] := by
  refine ⟨by decide, by decide, by decide, by decide, by decide⟩

/-- Claim C1 (amended): Phase B issues exactly one progress update per
successfully completed task — `30 + round(60·p/total)` for the p-th success —
and none for a task that throws (the catch only logs; `processedFormats` is
not incremented). When every requested entry is catalog-valid and every task
succeeds, the number of updates equals `totalFormats` and the final Phase-B
value is `30 + round(60·N/N) = 90`. -/
theorem C1_phaseB_updates_amended :
    ∀ (env : OrchestratorEnv) (mt : String) (cfg : List (String × List String)),
      (finalLoopState env mt cfg).updates.length
        = (finalLoopState env mt cfg).processedFormats
      ∧ (finalLoopState env mt cfg).updates
          = (List.range' 1 (finalLoopState env mt cfg).processedFormats).map
              (phaseBUpdate (totalFormatsOf cfg))
      ∧ (cfg.all entryValid = true → (∀ k, taskYields (env.tasks k) = true) →
          (finalLoopState env mt cfg).processedFormats = totalFormatsOf cfg
          ∧ (0 < totalFormatsOf cfg →
              (finalLoopState env mt cfg).updates.getLast? = some { progress := some 90 })) := by
  intro env mt cfg
  have hinv := finalLoopState_inv env mt cfg
  refine ⟨?_, hinv.1, ?_⟩
  · rw [hinv.1]
    simp
  · intro hv hy
    have hp := finalLoopState_valid_processed env mt cfg hv hy
    refine ⟨hp, ?_⟩
    intro hpos
    rw [hinv.1, hp, getLast?_map_range1 _ _ hpos]
    unfold phaseBUpdate
    rw [jsRound60_self _ hpos]

/-- Claim C1 witness: one valid format, task succeeds — one Phase-B update,
closing at progress 90. -/
theorem C1_phaseB_updates_amended_witness :
    (finalLoopState envAllOk "image/jpeg" cfgOneSquare).processedFormats
      = totalFormatsOf cfgOneSquare
    ∧ (finalLoopState envAllOk "image/jpeg" cfgOneSquare).updates.getLast?
      = some { progress := some 90 } := by
  have h := (C1_phaseB_updates_amended envAllOk "image/jpeg" cfgOneSquare).2.2
    (by decide) (fun _ => rfl)
  exact ⟨h.1, h.2 (by decide)⟩

/-! ## Reader-visible job state sequences -/

theorem jobStates_ne_nil (j : UploadJob) (us : List JobUpdate) : jobStates j us ≠ [] := by
  cases us <;> simp [jobStates]

theorem jobStates_head (j : UploadJob) (us : List JobUpdate) :
    (jobStates j us).head? = some j := by
  cases us <;> rfl

theorem applyAllUpdates_append :
    ∀ (us vs : List JobUpdate) (j : UploadJob),
      applyAllUpdates j (us ++ vs) = applyAllUpdates (applyAllUpdates j us) vs := by
  intro us
  induction us with
  | nil => intro vs j; rfl
  | cons u t ih => intro vs j; exact ih vs (mergeJob j u (j.updatedAt + 1))

theorem jobStates_getLast :
    ∀ (us : List JobUpdate) (j : UploadJob),
      (jobStates j us).getLast? = some (applyAllUpdates j us) := by
  intro us
  induction us with
  | nil => intro j; rfl
  | cons u t ih =>
    intro j
    show (j :: jobStates (mergeJob j u (j.updatedAt + 1)) t).getLast? = _
    have hne := jobStates_ne_nil (mergeJob j u (j.updatedAt + 1)) t
    cases hl : jobStates (mergeJob j u (j.updatedAt + 1)) t with
    | nil => exact absurd hl hne
    | cons b l =>
      rw [List.getLast?_cons_cons, ← hl, ih]
      rfl

theorem jobStates_dropLast_results :
    ∀ (us : List JobUpdate) (j : UploadJob) (uf : JobUpdate),
      j.results = none → (∀ u ∈ us, u.results = none) →
      ∀ s ∈ (jobStates j (us ++ [uf])).dropLast, s.results = none := by
  intro us
  induction us with
  | nil =>
    intro j uf hj _ s hs
    simp only [List.nil_append, jobStates, List.dropLast] at hs
    simp at hs
    rw [hs]
    exact hj
  | cons u t ih =>
    intro j uf hj hus s hs
    have hne := jobStates_ne_nil (mergeJob j u (j.updatedAt + 1)) (t ++ [uf])
    rw [show (u :: t) ++ [uf] = u :: (t ++ [uf]) from rfl] at hs
    rw [show jobStates j (u :: (t ++ [uf]))
          = j :: jobStates (mergeJob j u (j.updatedAt + 1)) (t ++ [uf]) from rfl,
        List.dropLast_cons_of_ne_nil hne] at hs
    rcases List.mem_cons.mp hs with h | h
    · rw [h]; exact hj
    · refine ih _ uf ?_ (fun u' hu' => hus u' (by simp [hu'])) s h
      have hu := hus u (by simp)
      simp [mergeJob, hu, hj]

theorem mono_none :
    ∀ (tail : List JobUpdate), (∀ u ∈ tail, u.progress = none) →
      ∀ q, updatesProgressMonotone q tail := by
  intro tail
  induction tail with
  | nil => intro _ q; trivial
  | cons u t ih =>
    intro h q
    have hu := h u (by simp)
    simp only [updatesProgressMonotone, hu]
    exact ih (fun u' hu' => h u' (by simp [hu'])) q

theorem mono_terminal (rs : List ProcessedResult) (tail : List JobUpdate)
    (htail : ∀ u ∈ tail, u.progress = none) :
    ∀ p, p ≤ 100 →
      updatesProgressMonotone p
        ({ status := some "completed", progress := some 100, results := some rs } :: tail) := by
  intro p hp
  simp only [updatesProgressMonotone]
  exact ⟨hp, mono_none tail htail 100⟩

theorem mono_seg (N : Nat) (rest : List JobUpdate)
    (hrest : ∀ p, p ≤ 90 → updatesProgressMonotone p rest) :
    ∀ (len i : Nat), i + len ≤ N →
      updatesProgressMonotone (30 + jsRound60 i N)
        (((List.range' (i + 1) len).map (phaseBUpdate N)) ++ rest) := by
  intro len
  induction len with
  | zero =>
    intro i hi
    have h60 := jsRound60_le_60 i N (by omega)
    simpa using hrest _ (by omega)
  | succ len' ih =>
    intro i hi
    have hr : List.range' (i + 1) (len' + 1) = (i + 1) :: List.range' (i + 2) len' := by
      simpa using List.range'_succ (i + 1) len' 1
    rw [hr]
    simp only [List.map_cons, List.cons_append, updatesProgressMonotone, phaseBUpdate]
    refine ⟨?_, ?_⟩
    · have := jsRound60_mono N i (i + 1) (by omega)
      omega
    · exact ih (i + 1) (by omega)

theorem states_iff_seg (N : Nat) (rs : List ProcessedResult) :
    ∀ (len i : Nat) (j : UploadJob), i + len ≤ N →
      j.status = "processing" → j.progress ≠ 100 →
      ∀ s ∈ jobStates j
          (((List.range' (i + 1) len).map (phaseBUpdate N))
            ++ [{ status := some "completed", progress := some 100, results := some rs }]),
        (s.progress = 100 ↔ s.status = "completed") := by
  intro len
  induction len with
  | zero =>
    intro i j _ hst hpr s hs
    simp only [List.range', List.map_nil, List.nil_append] at hs
    simp only [jobStates] at hs
    rcases List.mem_cons.mp hs with h | h
    · rw [h]
      constructor
      · intro hc; exact absurd hc hpr
      · intro hc; rw [hst] at hc; exact absurd hc (by decide)
    · simp at h
      rw [h]
      simp [mergeJob]
  | succ len' ih =>
    intro i j hi hst hpr s hs
    have hr : List.range' (i + 1) (len' + 1) = (i + 1) :: List.range' (i + 2) len' := by
      simpa using List.range'_succ (i + 1) len' 1
    rw [hr] at hs
    simp only [List.map_cons, List.cons_append, jobStates] at hs
    rcases List.mem_cons.mp hs with h | h
    · rw [h]
      constructor
      · intro hc; exact absurd hc hpr
      · intro hc; rw [hst] at hc; exact absurd hc (by decide)
    · refine ih (i + 1) _ (by omega) ?_ ?_ s h
      · simp [mergeJob, phaseBUpdate, hst]
      · have h60 := jsRound60_le_60 (i + 1) N (by omega)
        simp [mergeJob, phaseBUpdate]
        omega

theorem chain'_jobStates :
    ∀ (us : List JobUpdate) (j : UploadJob),
      updatesProgressMonotone j.progress us →
      List.Chain' (fun a b => a.progress ≤ b.progress) (jobStates j us) := by
  intro us
  induction us with
  | nil => intro j _; simp [jobStates]
  | cons u t ih =>
    intro j h
    show List.Chain' _ (j :: jobStates (mergeJob j u (j.updatedAt + 1)) t)
    rw [List.chain'_cons']
    constructor
    · intro b hb
      rw [jobStates_head] at hb
      simp at hb
      rw [← hb]
      cases hu : u.progress with
      | none => simp [mergeJob, hu]
      | some v =>
        simp only [updatesProgressMonotone, hu] at h
        simp [mergeJob, hu]
        exact h.1
    · apply ih
      cases hu : u.progress with
      | none =>
        simp only [updatesProgressMonotone, hu] at h
        simpa [mergeJob, hu] using h
      | some v =>
        simp only [updatesProgressMonotone, hu] at h
        simpa [mergeJob, hu] using h.2

theorem processMediaAsync_eq (env : OrchestratorEnv) (mt : String)
    (cfg : List (String × List String)) :
    processMediaAsync env mt cfg
      = { status := some "processing", progress := some 10 }
        :: { progress := some 30 }
        :: ((List.range' 1 (finalLoopState env mt cfg).processedFormats).map
              (phaseBUpdate (totalFormatsOf cfg))
            ++ [{ status := some "completed", progress := some 100,
                  results := some (finalLoopState env mt cfg).results }]
            ++ (if env.cleanupThrows then
                  [{ status := some "failed", error := some env.cleanupMsg }]
                else [])) := by
  unfold processMediaAsync
  rw [← (finalLoopState_inv env mt cfg).1]
  cases hc : env.cleanupThrows <;> simp [hc]

theorem processMediaAsync_eq_noCleanup (env : OrchestratorEnv) (mt : String)
    (cfg : List (String × List String)) (hcl : env.cleanupThrows = false) :
    processMediaAsync env mt cfg
      = { status := some "processing", progress := some 10 }
        :: { progress := some 30 }
        :: ((List.range' 1 (finalLoopState env mt cfg).processedFormats).map
              (phaseBUpdate (totalFormatsOf cfg))
            ++ [{ status := some "completed", progress := some 100,
                  results := some (finalLoopState env mt cfg).results }]) := by
  rw [processMediaAsync_eq env mt cfg, hcl]
  simp

/-- Claim C5 counterexample: when the post-completion `fs.unlinkSync` throws,
the outer catch overwrites the already-terminal job with `status: "failed"`
while `progress` is left at 100 — a reader observes a state with progress 100
whose status is not `completed`. -/
theorem C5_counterexample :
    ∃ s ∈ jobStates sampleJob (processMediaAsync envCleanupFail "image/jpeg" cfgOneSquare),
      s.progress = 100 ∧ s.status = "failed" ∧ s.status ≠ "completed" := by
  decide

/-- Claim C5 (amended): over every run, the observed `progress` sequence is
non-decreasing (0, 10, 30, Phase-B values, 100); and provided the
post-completion cleanup of the original upload does not throw, a reader sees
`progress = 100` exactly in states whose status is `completed`. (If the
cleanup throws, the job is re-marked `failed` with progress still 100.) -/
theorem C5_progress_monotone_amended :
    ∀ (env : OrchestratorEnv) (mt id fn : String) (fs t0 : Nat) (pls : List String)
      (cfg : List (String × List String)),
      List.Chain' (fun a b => a.progress ≤ b.progress)
        (jobStates (createUploadJob id fn fs mt pls t0) (processMediaAsync env mt cfg))
      ∧ (env.cleanupThrows = false →
          ∀ s ∈ jobStates (createUploadJob id fn fs mt pls t0) (processMediaAsync env mt cfg),
            (s.progress = 100 ↔ s.status = "completed")) := by
  intro env mt id fn fs t0 pls cfg
  have hS_le : (finalLoopState env mt cfg).processedFormats ≤ totalFormatsOf cfg := by
    have h1 := (finalLoopState_inv env mt cfg).2.2
    rw [finalLoopState_taskIdx] at h1
    exact Nat.le_trans h1 (resolvedCountOf_le cfg)
  constructor
  · apply chain'_jobStates
    rw [processMediaAsync_eq env mt cfg]
    show updatesProgressMonotone 0 _
    simp only [updatesProgressMonotone]
    refine ⟨by omega, by omega, ?_⟩
    rw [List.append_assoc]
    have hrest : ∀ p, p ≤ 90 →
        updatesProgressMonotone p
          ([{ status := some "completed", progress := some 100,
              results := some (finalLoopState env mt cfg).results }]
            ++ (if env.cleanupThrows then
                  [{ status := some "failed", error := some env.cleanupMsg }]
                else [])) := by
      intro p hp
      cases hc : env.cleanupThrows <;> simp [hc]
      · exact mono_terminal _ [] (by simp) p (by omega)
      · refine mono_terminal _ [{ status := some "failed", error := some env.cleanupMsg }]
          ?_ p (by omega)
        intro u hu
        simp at hu
        rw [hu]
    have h0 := mono_seg (totalFormatsOf cfg) _ hrest
      (finalLoopState env mt cfg).processedFormats 0 (by omega)
    rw [jsRound60_zero] at h0
    simpa using h0
  · intro hcl s hs
    rw [processMediaAsync_eq_noCleanup env mt cfg hcl] at hs
    simp only [jobStates] at hs
    rcases List.mem_cons.mp hs with h | hs2
    · rw [h]
      constructor
      · intro hx
        rw [show (createUploadJob id fn fs mt pls t0).progress = 0 from rfl] at hx
        exact absurd hx (by decide)
      · intro hx
        rw [show (createUploadJob id fn fs mt pls t0).status = "processing" from rfl] at hx
        exact absurd hx (by decide)
    · rcases List.mem_cons.mp hs2 with h | hs3
      · rw [h]
        simp [mergeJob, createUploadJob]
      · exact states_iff_seg (totalFormatsOf cfg) (finalLoopState env mt cfg).results
          (finalLoopState env mt cfg).processedFormats 0
          (mergeJob
            (mergeJob (createUploadJob id fn fs mt pls t0)
              { status := some "processing", progress := some 10 }
              ((createUploadJob id fn fs mt pls t0).updatedAt + 1))
            { progress := some 30 }
            ((mergeJob (createUploadJob id fn fs mt pls t0)
              { status := some "processing", progress := some 10 }
              ((createUploadJob id fn fs mt pls t0).updatedAt + 1)).updatedAt + 1))
          (by omega) rfl
          (by
            intro hx
            rw [show (mergeJob
                (mergeJob (createUploadJob id fn fs mt pls t0)
                  { status := some "processing", progress := some 10 }
                  ((createUploadJob id fn fs mt pls t0).updatedAt + 1))
                { progress := some 30 }
                ((mergeJob (createUploadJob id fn fs mt pls t0)
                  { status := some "processing", progress := some 10 }
                  ((createUploadJob id fn fs mt pls t0).updatedAt + 1)).updatedAt + 1)).progress
              = 30 from rfl] at hx
            exact absurd hx (by decide))
          s hs3

/-- Claim C5 witness: a fully successful one-format job — progress
0, 10, 30, 90, 100 is non-decreasing and 100 appears exactly at the
completed state. -/
theorem C5_progress_monotone_amended_witness :
    List.Chain' (fun a b => a.progress ≤ b.progress)
      (jobStates (createUploadJob "job1" "photo.jpg" 1000 "image/jpeg" ["instagram"] 0)
        (processMediaAsync envAllOk "image/jpeg" cfgOneSquare))
    ∧ ∀ s ∈ jobStates (createUploadJob "job1" "photo.jpg" 1000 "image/jpeg" ["instagram"] 0)
        (processMediaAsync envAllOk "image/jpeg" cfgOneSquare),
        (s.progress = 100 ↔ s.status = "completed") := by
  have h := C5_progress_monotone_amended envAllOk "image/jpeg" "job1" "photo.jpg"
    1000 0 ["instagram"] cfgOneSquare
  exact ⟨h.1, h.2 rfl⟩

/-- Claim C6: subject analysis is best-effort. The analysis block's failure is
absorbed by its own catch: the update trace and the accumulated results are
identical whether the vision call threw or succeeded, the first update is the
`{status:"processing", progress:10}` write, and the second update written is
always the Phase-A checkpoint `{progress: 30}` — after which the format loop
runs as usual. -/
theorem C6_analysis_best_effort :
    ∀ (env : OrchestratorEnv) (mt : String) (cfg : List (String × List String)),
      processMediaAsync { env with analysisThrows := true } mt cfg
        = processMediaAsync { env with analysisThrows := false } mt cfg
      ∧ finalLoopState { env with analysisThrows := true } mt cfg
        = finalLoopState { env with analysisThrows := false } mt cfg
      ∧ (processMediaAsync env mt cfg).head?
        = some { status := some "processing", progress := some 10 }
      ∧ (processMediaAsync env mt cfg).get? 1 = some { progress := some 30 } := by
  intro env mt cfg
  refine ⟨rfl, rfl, ?_, ?_⟩
  · rw [processMediaAsync_eq env mt cfg]
    rfl
  · rw [processMediaAsync_eq env mt cfg]
    rfl

/-- Claim C3 counterexample: a one-format job whose task succeeds. After the
first Format Task completes (reader state index 3 — progress already 90),
the stored `results` is still null; the single `FormatResult` becomes
visible only in the terminal state (index 4). -/
theorem C3_counterexample :
    ((jobStates sampleJob (processMediaAsync envAllOk "image/jpeg" cfgOneSquare)).get? 3).map
        (fun s => (s.progress, s.results)) = some (90, none)
    ∧ ((jobStates sampleJob (processMediaAsync envAllOk "image/jpeg" cfgOneSquare)).get? 4).map
        (fun s => (s.status, s.results.map List.length)) = some ("completed", some 1) :=
  ⟨by decide, by decide⟩

/-- Claim C3 (amended): the stored job's `results` stays null in every state a
reader can observe before the terminal write; the terminal `completed` write
then stores the whole accumulated sequence at once (one entry per successful
task, in completion order). -/
theorem C3_results_written_once_amended :
    ∀ (env : OrchestratorEnv) (mt id fn : String) (fs t0 : Nat) (pls : List String)
      (cfg : List (String × List String)),
      env.cleanupThrows = false →
      (∀ s ∈ (jobStates (createUploadJob id fn fs mt pls t0)
          (processMediaAsync env mt cfg)).dropLast, s.results = none)
      ∧ (jobStates (createUploadJob id fn fs mt pls t0)
          (processMediaAsync env mt cfg)).getLast?
        = some (applyAllUpdates (createUploadJob id fn fs mt pls t0)
            (processMediaAsync env mt cfg))
      ∧ (applyAllUpdates (createUploadJob id fn fs mt pls t0)
          (processMediaAsync env mt cfg)).results
        = some (finalLoopState env mt cfg).results
      ∧ (finalLoopState env mt cfg).results.length
        = (finalLoopState env mt cfg).processedFormats := by
  intro env mt id fn fs t0 pls cfg hcl
  refine ⟨?_, jobStates_getLast _ _, ?_, (finalLoopState_inv env mt cfg).2.1⟩
  · rw [processMediaAsync_eq_noCleanup env mt cfg hcl,
        ← List.cons_append, ← List.cons_append]
    apply jobStates_dropLast_results
    · rfl
    · intro u hu
      rcases List.mem_cons.mp hu with h | hu2
      · rw [h]
      · rcases List.mem_cons.mp hu2 with h | hu3
        · rw [h]
        · obtain ⟨p, _, hp⟩ := List.mem_map.mp hu3
          rw [← hp]
          rfl
  · rw [processMediaAsync_eq_noCleanup env mt cfg hcl,
        ← List.cons_append, ← List.cons_append, applyAllUpdates_append]
    rfl

/-- Claim C3 witness: the amended theorem at a concrete successful job. -/
theorem C3_results_written_once_amended_witness :
    (∀ s ∈ (jobStates (createUploadJob "job1" "photo.jpg" 1000 "image/jpeg" ["instagram"] 0)
        (processMediaAsync envAllOk "image/jpeg" cfgOneSquare)).dropLast, s.results = none)
    ∧ (finalLoopState envAllOk "image/jpeg" cfgOneSquare).results.length
      = (finalLoopState envAllOk "image/jpeg" cfgOneSquare).processedFormats := by
  have h := C3_results_written_once_amended envAllOk "image/jpeg" "job1" "photo.jpg"
    1000 0 ["instagram"] cfgOneSquare rfl
  exact ⟨h.1, h.2.2.2⟩

theorem trace_getLast (env : OrchestratorEnv) (mt : String)
    (cfg : List (String × List String)) (hcl : env.cleanupThrows = false) :
    (processMediaAsync env mt cfg).getLast?
      = some { status := some "completed", progress := some 100,
               results := some (finalLoopState env mt cfg).results } := by
  rw [processMediaAsync_eq_noCleanup env mt cfg hcl,
      ← List.cons_append, ← List.cons_append]
  exact List.getLast?_concat _

theorem lastPhaseBProgress_eq (env : OrchestratorEnv) (mt : String)
    (cfg : List (String × List String)) :
    lastPhaseBProgress env mt cfg
      = if (finalLoopState env mt cfg).processedFormats = 0 then 30
        else 30 + jsRound60 (finalLoopState env mt cfg).processedFormats
               (totalFormatsOf cfg) := by
  unfold lastPhaseBProgress
  rw [(finalLoopState_inv env mt cfg).1, List.filterMap_map]
  rw [show ((fun u : JobUpdate => u.progress) ∘ phaseBUpdate (totalFormatsOf cfg))
        = some ∘ (fun p => 30 + jsRound60 p (totalFormatsOf cfg)) from rfl,
      List.filterMap_eq_map]
  cases hS : (finalLoopState env mt cfg).processedFormats with
  | zero => rfl
  | succ S' =>
    rw [List.range'_concat, List.map_append]
    simp only [List.map_cons, List.map_nil]
    rw [List.getLastD_concat]
    simp [Nat.add_comm]

set_option maxRecDepth 100000 in
/-- Claim C8 counterexample: 200 requested formats under instagram — 199
valid `Square` duplicates plus `"Nope"`, which is absent from instagram's
format list and silently skipped, yet counted in `totalFormats`. All 199
attempted tasks succeed, and the last Phase-B progress value is
`30 + round(60·199/200) = 90` — NOT strictly below 90 as claimed (the job
still reaches completed with progress 100). -/
theorem C8_counterexample :
    totalFormatsOf cfgBig = 200
    ∧ resolvedCountOf cfgBig = 199
    ∧ (finalLoopState envAllOk "image/jpeg" cfgBig).processedFormats = 199
    ∧ lastPhaseBProgress envAllOk "image/jpeg" cfgBig = 90
    ∧ (processMediaAsync envAllOk "image/jpeg" cfgBig).getLast?
      = some { status := some "completed", progress := some 100,
               results := some (finalLoopState envAllOk "image/jpeg" cfgBig).results } := by
  refine ⟨by decide, by decide, by decide, by decide,
    trace_getLast envAllOk "image/jpeg" cfgBig rfl⟩

/-- Claim C8 (amended): catalog-invalid entries are skipped without a task
attempt, a `FormatResult` or a progress update, yet still counted in
`totalFormats`; the job reaches `completed` with progress 100, and the last
Phase-B progress value is at most 90 — strictly below 90 whenever
`120·successes < 119·totalFormats` (in particular whenever some requested
name is skipped and fewer than 120 formats were requested), but equal to 90
for large requests such as 199 successes out of 200. -/
theorem C8_skipped_entries_amended :
    ∀ (env : OrchestratorEnv) (mt : String) (cfg : List (String × List String)),
      env.cleanupThrows = false →
      (finalLoopState env mt cfg).taskIdx = resolvedCountOf cfg
      ∧ (finalLoopState env mt cfg).processedFormats ≤ resolvedCountOf cfg
      ∧ (finalLoopState env mt cfg).results.length
          = (finalLoopState env mt cfg).processedFormats
      ∧ (processMediaAsync env mt cfg).getLast?
          = some { status := some "completed", progress := some 100,
                   results := some (finalLoopState env mt cfg).results }
      ∧ lastPhaseBProgress env mt cfg ≤ 90
      ∧ (120 * (finalLoopState env mt cfg).processedFormats < 119 * totalFormatsOf cfg →
          lastPhaseBProgress env mt cfg < 90)
      ∧ (resolvedCountOf cfg < totalFormatsOf cfg → totalFormatsOf cfg < 120 →
          lastPhaseBProgress env mt cfg < 90) := by
  intro env mt cfg hcl
  have hinv := finalLoopState_inv env mt cfg
  have htask := finalLoopState_taskIdx env mt cfg
  have hSr : (finalLoopState env mt cfg).processedFormats ≤ resolvedCountOf cfg := by
    have := hinv.2.2
    omega
  have hSN : (finalLoopState env mt cfg).processedFormats ≤ totalFormatsOf cfg :=
    Nat.le_trans hSr (resolvedCountOf_le cfg)
  have hlt : 120 * (finalLoopState env mt cfg).processedFormats < 119 * totalFormatsOf cfg →
      lastPhaseBProgress env mt cfg < 90 := by
    intro h120
    rw [lastPhaseBProgress_eq]
    split_ifs with h0
    · omega
    · have := jsRound60_lt_60 _ _ h120
      omega
  refine ⟨htask, hSr, hinv.2.1, trace_getLast env mt cfg hcl, ?_, hlt, ?_⟩
  · rw [lastPhaseBProgress_eq]
    split_ifs with h0
    · omega
    · have := jsRound60_le_60 _ _ hSN
      omega
  · intro h1 h2
    exact hlt (by omega)

/-- Claim C8 witness: one valid and one skipped instagram format
(`totalFormats = 2`, one resolved): the job's last Phase-B value is strictly
below 90 and the skipped name consumed no task attempt. -/
theorem C8_skipped_entries_amended_witness :
    (finalLoopState envAllOk "image/jpeg" cfgSkip).taskIdx = resolvedCountOf cfgSkip
    ∧ lastPhaseBProgress envAllOk "image/jpeg" cfgSkip < 90 := by
  have h := C8_skipped_entries_amended envAllOk "image/jpeg" cfgSkip rfl
  exact ⟨h.1, h.2.2.2.2.2.2 (by decide) (by decide)⟩
